import Mathlib

/-
  Verification development for librbd's AioCompletion
  (src/src/librbd/io/AioCompletion.cc).

  The completion object tracks one logical I/O request that fans out into
  `pending_count` sub-operations; each sub-operation reports through
  `complete_request`, results are aggregated (positive byte counts sum into
  `rval`, the first negative non-(-EEXIST) result latches into `error_rval`),
  and the call whose decrement brings `pending_count` to zero runs
  `finalize` followed by `complete`, which invokes the user callback.

  The shallow embedding below models the fields the .cc file manipulates.
  Machine integers are modelled as Int/Nat (rval is ssize_t, pending_count
  is uint32_t; the code asserts before any wraparound becomes observable).
  `ceph_assert` failures are modelled as `none` (abort).  External
  collaborators (perf counters, tracepoints, logging, read_result assembly,
  async_op tracking, reference counting via put) have no modelled state;
  the work-queue submission of a C_AioRequest is modelled by the
  `queued_work` counter, and the externally observable actions of
  `complete` are recorded in an event trace.
-/

namespace LibrbdAio

/-- errno EEXIST (17); `-EEXIST` is the benign-duplicate sentinel that
`complete_request` excludes from error latching. -/
def EEXIST : Int := 17

/-- The three completion states of AioCompletion
(AIO_STATE_PENDING → AIO_STATE_CALLBACK → AIO_STATE_COMPLETE). -/
inductive AioState where
  | AIO_STATE_PENDING
  | AIO_STATE_CALLBACK
  | AIO_STATE_COMPLETE
deriving DecidableEq

/-- The aio_type_t tag of the logical request. -/
inductive AioType where
  | AIO_TYPE_GENERIC
  | AIO_TYPE_OPEN
  | AIO_TYPE_CLOSE
  | AIO_TYPE_READ
  | AIO_TYPE_WRITE
  | AIO_TYPE_DISCARD
  | AIO_TYPE_FLUSH
  | AIO_TYPE_WRITESAME
  | AIO_TYPE_COMPARE_AND_WRITE
deriving DecidableEq

/-- Externally observable actions performed by `complete`, in program
order.  `invokeCallback` records the value of `ictx` at the moment the
user callback is invoked. -/
inductive Ev where
  | destroyCtx
  | setState (st : AioState)
  | invokeCallback (ictxAtCall : Option Nat)
  | eventSocketNotify
  | notifyAll
deriving DecidableEq

/-- The state of one AioCompletion object.  `ictx : Option Nat` models the
ImageCtx pointer (`none` = nullptr, `some i` = a live context identified by
`i`); `complete_cb` models whether a user callback is registered;
`queued_work` counts C_AioRequest units submitted to op_work_queue. -/
structure AioCompletion where
  state : AioState
  rval : Int
  error_rval : Int
  pending_count : Nat
  aio_type : AioType
  ictx : Option Nat
  start_time : Nat
  complete_cb : Bool
  event_notify : Bool
  event_socket_valid : Bool
  queued_work : Nat
deriving DecidableEq

/-- AioCompletion::get_return_value (lines 207-212): returns rval. -/
def get_return_value (s : AioCompletion) : Int := s.rval

/-- AioCompletion::is_complete (lines 200-205):
`bool done = (this->state != AIO_STATE_PENDING)`. -/
def is_complete (s : AioCompletion) : Bool :=
  decide (s.state ≠ AioState.AIO_STATE_PENDING)

/-- AioCompletion::wait_for_complete (lines 32-42): loops on the condition
variable while `state != AIO_STATE_COMPLETE`, then returns 0.  Modelled as
a partial observation: `none` means the caller is still blocked, `some z`
means the wait returned with value `z`. -/
def wait_for_complete (s : AioCompletion) : Option Int :=
  if s.state = AioState.AIO_STATE_COMPLETE then some 0 else none

/-- AioCompletion::init_time (lines 125-131): only when `ictx == nullptr`
does it store the context, the aio_type and the start time. -/
def init_time (s : AioCompletion) (i : Nat) (t : AioType) (now : Nat) :
    AioCompletion :=
  if s.ictx = none then
    { s with ictx := some i, aio_type := t, start_time := now }
  else
    s

/-- The aggregation step of AioCompletion::complete_request (lines
182-189): `if (r > 0) rval += r; else if (r != -EEXIST) {int zero = 0;
error_rval.compare_exchange_strong(zero, r);}`. -/
def accumulate (s : AioCompletion) (r : Int) : AioCompletion :=
  if 0 < r then
    { s with rval := s.rval + r }
  else if r ≠ -EEXIST then
    (if s.error_rval = 0 then { s with error_rval := r } else s)
  else
    s

/-- AioCompletion::finalize (lines 44-60): asserts `ictx != nullptr`; if
the latched `error_rval` is negative it overwrites `rval`; the
read-result assembly (r ≥ 0 and AIO_TYPE_READ) is an external collaborator
call with no modelled state. -/
def finalize (s : AioCompletion) : Option AioCompletion :=
  if s.ictx = none then none
  else some (if s.error_rval < 0 then { s with rval := s.error_rval } else s)

/-- The condition of lines 93-94 of AioCompletion::complete:
`(aio_type == AIO_TYPE_CLOSE) || (aio_type == AIO_TYPE_OPEN && r < 0)`,
where `r` is the snapshot of rval taken at entry. -/
def completeDestroysCtx (s : AioCompletion) : Bool :=
  s.aio_type = AioType.AIO_TYPE_CLOSE ∨
    (s.aio_type = AioType.AIO_TYPE_OPEN ∧ s.rval < 0)

/-- AioCompletion::complete (lines 62-123): asserts `ictx != nullptr`;
records latency (external, no modelled state); for close, or open with
negative result, deletes ictx and nulls it before anything else; sets
state to AIO_STATE_CALLBACK; invokes the user callback if registered;
pushes onto the context's completed_reqs and notifies the event socket
when ictx is still live, event_notify is set and the socket is valid; sets
state to AIO_STATE_COMPLETE; wakes all waiters.  Returns the new state
together with the trace of observable actions in program order. -/
def complete (s : AioCompletion) : Option (AioCompletion × List Ev) :=
  if s.ictx = none then none
  else
    let s1 := if completeDestroysCtx s then { s with ictx := none } else s
    let evs1 : List Ev := if completeDestroysCtx s then [Ev.destroyCtx] else []
    let s2 := { s1 with state := AioState.AIO_STATE_CALLBACK }
    let evs2 : List Ev :=
      if s2.complete_cb then [Ev.invokeCallback s2.ictx] else []
    let evs3 : List Ev :=
      if s2.ictx.isSome && s2.event_notify && s2.event_socket_valid then
        [Ev.eventSocketNotify]
      else []
    let s3 := { s2 with state := AioState.AIO_STATE_COMPLETE }
    some (s3,
      evs1 ++ [Ev.setState AioState.AIO_STATE_CALLBACK] ++ evs2 ++ evs3 ++
        [Ev.setState AioState.AIO_STATE_COMPLETE, Ev.notifyAll])

/-- AioCompletion::set_request_count (lines 157-171): asserts
`ictx != nullptr`; exchanges pending_count with `count == 0 ? 1 : count`
and asserts the previous value was 0; when `count == 0` it queues one
C_AioRequest on the context's op_work_queue (modelled by incrementing
`queued_work`). -/
def set_request_count (s : AioCompletion) (count : Nat) : Option AioCompletion :=
  if s.ictx = none then none
  else
    let previous_pending_count := s.pending_count
    let s1 := { s with pending_count := if count = 0 then 1 else count }
    if previous_pending_count ≠ 0 then none
    else if count = 0 then some { s1 with queued_work := s1.queued_work + 1 }
    else some s1

/-- AioCompletion::complete_request (lines 173-198): decrements
pending_count capturing the previous value, asserts it was positive,
asserts `ictx != nullptr`, aggregates `r` (see `accumulate`), and if the
local `pending_count = previous - 1` is zero runs `finalize` then
`complete`.  (The trailing `put()` touches only the unmodelled reference
count.) -/
def complete_request (s : AioCompletion) (r : Int) : Option AioCompletion :=
  if s.pending_count = 0 then none
  else if ({ s with pending_count := s.pending_count - 1 } : AioCompletion).ictx
      = none then none
  else if s.pending_count - 1 = 0 then
    match finalize
        (accumulate { s with pending_count := s.pending_count - 1 } r) with
    | none => none
    | some s3 => (complete s3).map Prod.fst
  else
    some (accumulate { s with pending_count := s.pending_count - 1 } r)

/-- Sequential delivery of a list of sub-operation reports through
`complete_request`, one call per report, propagating assertion failures. -/
def deliver (s : AioCompletion) : List Int → Option AioCompletion
  | [] => some s
  | r :: rest =>
    match complete_request s r with
    | none => none
    | some s' => deliver s' rest

/-- Projection of `accumulate` onto the (rval, error_rval) pair it
mutates; `accumulate_agg` below proves the correspondence. -/
def aggStep (p : Int × Int) (r : Int) : Int × Int :=
  if 0 < r then (p.1 + r, p.2)
  else if r ≠ -EEXIST then (p.1, if p.2 = 0 then r else p.2)
  else p

/-- A report that the code latches as an error: strictly negative and not
the benign-duplicate sentinel -EEXIST. -/
def isRealError (r : Int) : Bool := decide (r < 0) && decide (r ≠ -EEXIST)

/-- The first latchable error in delivery order, if any. -/
def firstError (rs : List Int) : Option Int := rs.find? isRealError

/-- The sum of the strictly positive reports. -/
def sumPos (rs : List Int) : Int := (rs.filter (fun x => decide (0 < x))).sum

/-- Stated from the spec's words: the final result is the first latched
error when some report is a real error, and otherwise the sum of the
strictly positive reports. -/
def specExpectedResult (rs : List Int) : Int :=
  match firstError rs with
  | some e => e
  | none => sumPos rs

/-! ### Concurrent model of complete_request

Each sub-operation thread executes the body of `complete_request` as a
sequence of atomic steps matching the source's atomic operations, against
a shared `AioCompletion`:

* pc 0 (lines 175-177): `pending_count--` capturing the previous value,
  asserting it positive;
* pc 1 (lines 179-189): the `ictx` assertion and the aggregation of the
  thread's own result (one atomic read-modify-write on `rval` or one
  compare-exchange on `error_rval`);
* pc 2 (lines 193-196): if this thread's captured `previous - 1` is zero,
  run `finalize` then `complete`;
* pc 3: done (`put()` touches only the unmodelled reference count).

A schedule is a list of thread indices; `run` executes the corresponding
interleaving of atomic steps. -/

/-- One sub-operation thread: its program counter, its captured
`previous_pending_count` and its result. -/
structure ThreadSt where
  pc : Nat
  prev : Nat
  res : Int
deriving DecidableEq

/-- The shared completion plus the per-thread states, with
instrumentation: how many times the user callback has been invoked, the
aggregated `rval` observed at the first callback invocation, how many
threads ran the finalize/complete sequence, and whether any `ceph_assert`
failed. -/
structure ConcState where
  shared : AioCompletion
  threads : List ThreadSt
  callbackCount : Nat
  callbackRval : Option Int
  finishers : Nat
  failed : Bool
deriving DecidableEq

/-- Advance thread `tid` by one atomic step of `complete_request`. -/
def stepThread (c : ConcState) (tid : Nat) : ConcState :=
  match c.threads[tid]? with
  | none => c
  | some t =>
    match t.pc with
    | 0 =>
      let previous := c.shared.pending_count
      let c' := { c with
        shared := { c.shared with pending_count := previous - 1 },
        threads := c.threads.set tid { t with pc := 1, prev := previous } }
      if previous = 0 then { c' with failed := true } else c'
    | 1 =>
      if c.shared.ictx = none then
        { c with failed := true, threads := c.threads.set tid { t with pc := 3 } }
      else
        { c with
          shared := accumulate c.shared t.res,
          threads := c.threads.set tid { t with pc := 2 } }
    | 2 =>
      if t.prev - 1 = 0 then
        match finalize c.shared with
        | none =>
          { c with failed := true, threads := c.threads.set tid { t with pc := 3 } }
        | some s1 =>
          match complete s1 with
          | none =>
            { c with failed := true, threads := c.threads.set tid { t with pc := 3 } }
          | some su =>
            { c with
              shared := su.1,
              threads := c.threads.set tid { t with pc := 3 },
              callbackCount :=
                c.callbackCount + (if s1.complete_cb then 1 else 0),
              callbackRval :=
                (match c.callbackRval with
                 | some v => some v
                 | none => if s1.complete_cb then some s1.rval else none),
              finishers := c.finishers + 1 }
      else
        { c with threads := c.threads.set tid { t with pc := 3 } }
    | _ => c

/-- Run a schedule (a list of thread indices) from a concurrent state. -/
def run (c : ConcState) (sched : List Nat) : ConcState :=
  sched.foldl stepThread c

/-- A freshly declared completion: bound to a live context, callback
registered, `pending` sub-operations outstanding and no results yet. -/
def mkCompletion (pending : Nat) (t : AioType) : AioCompletion :=
  { state := AioState.AIO_STATE_PENDING, rval := 0, error_rval := 0,
    pending_count := pending, aio_type := t, ictx := some 0, start_time := 0,
    complete_cb := true, event_notify := false, event_socket_valid := false,
    queued_work := 0 }

/-- Two concurrent sub-operation reports, thread 0 reporting 5 and thread
1 reporting 3, on a completion declared with `pending_count = 2`. -/
def raceInit : ConcState :=
  { shared := mkCompletion 2 AioType.AIO_TYPE_WRITE,
    threads := [⟨0, 0, 5⟩, ⟨0, 0, 3⟩],
    callbackCount := 0, callbackRval := none, finishers := 0, failed := false }

/-! ### Helper lemmas -/

lemma accumulate_ictx (s : AioCompletion) (r : Int) :
    (accumulate s r).ictx = s.ictx := by
  unfold accumulate
  repeat' split
  all_goals rfl

lemma accumulate_pending (s : AioCompletion) (r : Int) :
    (accumulate s r).pending_count = s.pending_count := by
  unfold accumulate
  repeat' split
  all_goals rfl

lemma accumulate_agg (s : AioCompletion) (r : Int) :
    ((accumulate s r).rval, (accumulate s r).error_rval) =
      aggStep (s.rval, s.error_rval) r := by
  by_cases h1 : 0 < r
  · simp [accumulate, aggStep, h1]
  · by_cases h2 : r = -EEXIST
    · subst h2
      norm_num [accumulate, aggStep, EEXIST]
    · by_cases h3 : s.error_rval = 0 <;>
        simp [accumulate, aggStep, h1, h2, h3]

lemma finalize_of_isSome (s : AioCompletion) (h : s.ictx.isSome) :
    finalize s =
      some (if s.error_rval < 0 then { s with rval := s.error_rval } else s) := by
  unfold finalize
  rw [if_neg]
  intro hn
  rw [hn] at h
  simp at h

lemma finalize_error (s s' : AioCompletion) (h : finalize s = some s') :
    s'.error_rval = s.error_rval := by
  unfold finalize at h
  split at h
  · cases h
  · split at h <;> (injection h with h; subst h; rfl)

lemma finalize_rval (s s' : AioCompletion) (h : finalize s = some s') :
    s'.rval = (if s.error_rval < 0 then s.error_rval else s.rval) := by
  unfold finalize at h
  split at h
  · cases h
  · rename_i hlt
    by_cases hneg : s.error_rval < 0 <;>
      simp only [hneg, if_true, if_false, reduceIte] at h ⊢ <;>
      (injection h with h; subst h; rfl)

lemma finalize_ictx (s s' : AioCompletion) (h : finalize s = some s') :
    s'.ictx = s.ictx := by
  unfold finalize at h
  split at h
  · cases h
  · split at h <;> (injection h with h; subst h; rfl)

lemma complete_fields (s s' : AioCompletion) (evs : List Ev)
    (h : complete s = some (s', evs)) :
    s'.rval = s.rval ∧ s'.error_rval = s.error_rval ∧
      s'.pending_count = s.pending_count ∧
      s'.state = AioState.AIO_STATE_COMPLETE := by
  unfold complete at h
  split at h
  · cases h
  · by_cases hd : completeDestroysCtx s <;>
      simp only [hd, if_true, if_false, reduceIte, Option.some.injEq,
        Prod.mk.injEq] at h <;>
      (obtain ⟨h1, -⟩ := h; subst h1; exact ⟨rfl, rfl, rfl, rfl⟩)

lemma complete_of_isSome (s : AioCompletion) (h : s.ictx.isSome) :
    ∃ s' evs, complete s = some (s', evs) := by
  unfold complete
  rw [if_neg]
  · exact ⟨_, _, rfl⟩
  · intro hn
    rw [hn] at h
    simp at h

lemma complete_request_mid (s : AioCompletion) (r : Int) (h : s.ictx.isSome)
    (hp : 2 ≤ s.pending_count) :
    complete_request s r =
      some (accumulate { s with pending_count := s.pending_count - 1 } r) := by
  have hnn : ¬ s.ictx = none := by
    intro hn
    rw [hn] at h
    simp at h
  unfold complete_request
  rw [if_neg (by omega), if_neg hnn, if_neg (by omega)]

lemma complete_request_last (s : AioCompletion) (r : Int) (h : s.ictx.isSome)
    (hp : s.pending_count = 1) :
    ∃ s', complete_request s r = some s' ∧
      s'.rval = (if (aggStep (s.rval, s.error_rval) r).2 < 0 then
                  (aggStep (s.rval, s.error_rval) r).2
                 else (aggStep (s.rval, s.error_rval) r).1) ∧
      s'.error_rval = (aggStep (s.rval, s.error_rval) r).2 := by
  have hnn : ¬ s.ictx = none := by
    intro hn
    rw [hn] at h
    simp at h
  set s2 := accumulate { s with pending_count := s.pending_count - 1 } r with hs2
  have hagg := accumulate_agg { s with pending_count := s.pending_count - 1 } r
  rw [← hs2] at hagg
  have hagg1 : s2.rval = (aggStep (s.rval, s.error_rval) r).1 :=
    congrArg Prod.fst hagg
  have hagg2 : s2.error_rval = (aggStep (s.rval, s.error_rval) r).2 :=
    congrArg Prod.snd hagg
  have h2ictx : s2.ictx = s.ictx := accumulate_ictx _ _
  have h2some : s2.ictx.isSome := by rw [h2ictx]; exact h
  obtain ⟨s3, hfin⟩ : ∃ s3, finalize s2 = some s3 :=
    ⟨_, finalize_of_isSome s2 h2some⟩
  have h3err : s3.error_rval = s2.error_rval := finalize_error s2 s3 hfin
  have h3rv : s3.rval = (if s2.error_rval < 0 then s2.error_rval else s2.rval) :=
    finalize_rval s2 s3 hfin
  have h3ictx : s3.ictx = s2.ictx := finalize_ictx s2 s3 hfin
  have h3some : s3.ictx.isSome := by rw [h3ictx]; exact h2some
  obtain ⟨s4, evs, hcomp⟩ := complete_of_isSome s3 h3some
  obtain ⟨h4rv, h4err, -, -⟩ := complete_fields s3 s4 evs hcomp
  refine ⟨s4, ?_, ?_, ?_⟩
  · unfold complete_request
    rw [if_neg (by omega), if_neg hnn, if_pos (by omega), ← hs2, hfin]
    show (complete s3).map Prod.fst = some s4
    rw [hcomp]
    rfl
  · rw [h4rv, h3rv, hagg1, hagg2]
  · rw [h4err, h3err, hagg2]

lemma deliver_result (rs : List Int) : ∀ (s : AioCompletion),
    s.ictx.isSome → s.pending_count = rs.length → rs ≠ [] →
    ∃ s', deliver s rs = some s' ∧
      s'.rval = (if (rs.foldl aggStep (s.rval, s.error_rval)).2 < 0 then
                  (rs.foldl aggStep (s.rval, s.error_rval)).2
                 else (rs.foldl aggStep (s.rval, s.error_rval)).1) ∧
      s'.error_rval = (rs.foldl aggStep (s.rval, s.error_rval)).2 := by
  induction rs with
  | nil => exact fun s _ _ hne => absurd rfl hne
  | cons r rest ih =>
    intro s h hp _
    rcases rest with _ | ⟨r2, rest2⟩
    · obtain ⟨s', hcr, hrv, herr⟩ :=
        complete_request_last s r h (by simpa using hp)
      exact ⟨s', by simp [deliver, hcr], by simpa using hrv, by simpa using herr⟩
    · have hp2 : 2 ≤ s.pending_count := by
        rw [hp, List.length_cons, List.length_cons]
        omega
      have hmid := complete_request_mid s r h hp2
      set s2 := accumulate { s with pending_count := s.pending_count - 1 } r
        with hs2
      have hagg := accumulate_agg { s with pending_count := s.pending_count - 1 } r
      rw [← hs2] at hagg
      have h2ictx : s2.ictx = s.ictx := accumulate_ictx _ _
      have h2pend : s2.pending_count = s.pending_count - 1 :=
        accumulate_pending _ _
      obtain ⟨s', hdel, hrv, herr⟩ := ih s2
        (by rw [h2ictx]; exact h)
        (by rw [h2pend, hp, List.length_cons]; simp)
        (by simp)
      rw [hagg] at hrv herr
      refine ⟨s', ?_, ?_, ?_⟩
      · simp only [deliver, hmid]
        exact hdel
      · rw [List.foldl_cons]
        exact hrv
      · rw [List.foldl_cons]
        exact herr

lemma deliver_isSome (rs : List Int) : ∀ (s : AioCompletion),
    s.ictx.isSome → rs.length ≤ s.pending_count → (deliver s rs).isSome := by
  induction rs with
  | nil =>
    intro s _ _
    simp [deliver]
  | cons r rest ih =>
    intro s h hlen
    rw [List.length_cons] at hlen
    by_cases hone : s.pending_count = 1
    · have hrest : rest = [] := List.length_eq_zero.mp (by omega)
      subst hrest
      obtain ⟨s', hcr, -, -⟩ := complete_request_last s r h hone
      simp [deliver, hcr]
    · have hp2 : 2 ≤ s.pending_count := by omega
      have hmid := complete_request_mid s r h hp2
      have h2ictx := accumulate_ictx { s with pending_count := s.pending_count - 1 } r
      have h2pend := accumulate_pending { s with pending_count := s.pending_count - 1 } r
      have hrec := ih (accumulate { s with pending_count := s.pending_count - 1 } r)
        (by rw [h2ictx]; exact h)
        (by rw [h2pend]; show rest.length ≤ s.pending_count - 1; omega)
      simp only [deliver, hmid]
      exact hrec

lemma foldl_aggStep (rs : List Int) : ∀ (a e : Int),
    rs.foldl aggStep (a, e) =
      (a + sumPos rs, if e = 0 then (firstError rs).getD 0 else e) := by
  induction rs with
  | nil =>
    intro a e
    simp only [List.foldl_nil, sumPos, firstError, List.filter_nil,
      List.sum_nil, List.find?_nil, Option.getD_none, add_zero]
    by_cases he : e = 0 <;> simp [he]
  | cons r rest ih =>
    intro a e
    rw [List.foldl_cons]
    by_cases h1 : 0 < r
    · have hre : isRealError r = false := by
        simp only [isRealError, Bool.and_eq_false_iff, decide_eq_false_iff_not]
        left
        omega
      have hstep : aggStep (a, e) r = (a + r, e) := by simp [aggStep, h1]
      rw [hstep, ih]
      simp only [sumPos, firstError, List.filter_cons, List.find?_cons, hre,
        decide_eq_true_eq, h1, if_true, decide_true_eq_true]
      rw [List.sum_cons, add_assoc]
    · by_cases h2 : r = -EEXIST
      · have hre : isRealError r = false := by
          simp [isRealError, h2]
        have hstep : aggStep (a, e) r = (a, e) := by
          subst h2
          norm_num [aggStep, EEXIST]
        rw [hstep, ih]
        simp only [sumPos, firstError, List.filter_cons, List.find?_cons, hre]
        simp [h1]
      · by_cases h0 : r = 0
        · have hre : isRealError r = false := by
            simp only [isRealError, Bool.and_eq_false_iff, decide_eq_false_iff_not]
            left
            omega
          have hstep : aggStep (a, e) r = (a, e) := by
            subst h0
            by_cases he : e = 0 <;> simp [aggStep, he]
          rw [hstep, ih]
          simp only [sumPos, firstError, List.filter_cons, List.find?_cons, hre]
          simp [h1]
        · have hneg : r < 0 := by omega
          have hre : isRealError r = true := by
            simp [isRealError, hneg, h2]
          have hstep : aggStep (a, e) r = (a, if e = 0 then r else e) := by
            simp [aggStep, h1, h2]
          rw [hstep, ih]
          simp only [sumPos, firstError, List.filter_cons, List.find?_cons, hre,
            if_true]
          have hsum : ¬ (decide (0 < r) = true) := by simp; omega
          by_cases he : e = 0
          · simp only [he, if_true, reduceIte]
            have : ¬ r = 0 := h0
            simp [this, h1]
          · simp [he, h1]

lemma find?_eq_some_of_unique {p : Int → Bool} (v : Int) :
    ∀ (rs : List Int), (∀ x ∈ rs, p x = true → x = v) → v ∈ rs → p v = true →
    rs.find? p = some v := by
  intro rs
  induction rs with
  | nil =>
    intro _ hv _
    cases hv
  | cons r rest ih =>
    intro hall hv hpv
    by_cases hr : p r = true
    · have hrv : r = v := hall r (List.mem_cons_self _ _) hr
      rw [List.find?_cons_of_pos _ hr, hrv]
    · have hv' : v ∈ rest := by
        rcases List.mem_cons.mp hv with hh | hh
        · exact absurd (hh ▸ hpv) hr
        · exact hh
      rw [List.find?_cons_of_neg _ hr]
      exact ih (fun x hx hpx => hall x (List.mem_cons_of_mem _ hx) hpx) hv' hpv

lemma accumulate_error_ne (s : AioCompletion) (r : Int)
    (h : s.error_rval ≠ -EEXIST) : (accumulate s r).error_rval ≠ -EEXIST := by
  by_cases h1 : 0 < r
  · simpa [accumulate, h1] using h
  · by_cases h2 : r = -EEXIST
    · subst h2
      norm_num [accumulate, EEXIST]
      exact h
    · by_cases h3 : s.error_rval = 0 <;>
        simp [accumulate, h1, h2, h3, h]

lemma complete_request_error_ne (s s' : AioCompletion) (r : Int)
    (h : s.error_rval ≠ -EEXIST) (hcr : complete_request s r = some s') :
    s'.error_rval ≠ -EEXIST := by
  have hacc : ∀ n, (accumulate { s with pending_count := n } r).error_rval ≠ -EEXIST :=
    fun n => accumulate_error_ne { s with pending_count := n } r h
  unfold complete_request at hcr
  split at hcr
  · cases hcr
  · split at hcr
    · cases hcr
    · split at hcr
      · rename_i hzero
        split at hcr
        · cases hcr
        · rename_i s3 hfin
          obtain ⟨⟨s4, evs⟩, hcomp, hfst⟩ := Option.map_eq_some'.mp hcr
          have h4 : s4.error_rval = s3.error_rval :=
            (complete_fields s3 s4 evs hcomp).2.1
          have h3 : s3.error_rval = _ := finalize_error _ s3 hfin
          rw [← hfst]
          simp only [h4, h3]
          exact hacc _
      · injection hcr with hcr
        rw [← hcr]
        exact hacc _

lemma deliver_error_ne (rs : List Int) : ∀ (s s' : AioCompletion),
    s.error_rval ≠ -EEXIST → deliver s rs = some s' →
    s'.error_rval ≠ -EEXIST := by
  induction rs with
  | nil =>
    intro s s' h hd
    simp only [deliver, Option.some.injEq] at hd
    rw [← hd]
    exact h
  | cons r rest ih =>
    intro s s' h hd
    simp only [deliver] at hd
    split at hd
    · cases hd
    · rename_i smid hcr
      exact ih smid s' (complete_request_error_ne s smid r h hcr) hd

/-! ### Concrete states used by the witnesses -/

/-- A completed state whose aggregated result is the error -5 (-EIO). -/
def sFailedComplete : AioCompletion :=
  { mkCompletion 0 AioType.AIO_TYPE_WRITE with
    state := AioState.AIO_STATE_COMPLETE, rval := -5 }

/-- A state caught mid-notification: the user callback is running. -/
def sCallback : AioCompletion :=
  { mkCompletion 0 AioType.AIO_TYPE_WRITE with
    state := AioState.AIO_STATE_CALLBACK }

/-- A freshly constructed completion, not yet bound to a context. -/
def sUnbound : AioCompletion :=
  { mkCompletion 0 AioType.AIO_TYPE_GENERIC with ictx := none }

/-! ### Claims -/

/-- C7: `wait_for_complete` blocks until `state = AIO_STATE_COMPLETE`
(`none` models a still-blocked waiter) and then returns 0 whatever the
aggregated result is: the return value signals settlement only, never
I/O success. -/
theorem wait_for_complete_settlement (s : AioCompletion) :
    (s.state = AioState.AIO_STATE_COMPLETE → wait_for_complete s = some 0) ∧
    (s.state ≠ AioState.AIO_STATE_COMPLETE → wait_for_complete s = none) ∧
    (∀ z : Int, wait_for_complete s = some z → z = 0) := by
  refine ⟨fun h => ?_, fun h => ?_, fun z hz => ?_⟩
  · simp [wait_for_complete, h]
  · simp [wait_for_complete, h]
  · unfold wait_for_complete at hz
    split at hz
    · injection hz with hz
      exact hz.symm
    · cases hz

/-- Witness for C7: on a settled completion whose final result is the
error -5, the synchronous wait still returns 0. -/
theorem wait_for_complete_settlement_witness :
    wait_for_complete sFailedComplete = some 0 :=
  (wait_for_complete_settlement sFailedComplete).1 rfl

/-- C8: `is_complete` returns true exactly when the state is not
AIO_STATE_PENDING; in particular it is already true in AIO_STATE_CALLBACK,
while the user callback may still be running, not only in
AIO_STATE_COMPLETE. -/
theorem is_complete_iff_not_pending (s : AioCompletion) :
    (is_complete s = true ↔ s.state ≠ AioState.AIO_STATE_PENDING) ∧
    (s.state = AioState.AIO_STATE_CALLBACK → is_complete s = true) ∧
    (s.state = AioState.AIO_STATE_COMPLETE → is_complete s = true) := by
  refine ⟨?_, fun h => ?_, fun h => ?_⟩
  · simp [is_complete]
  · simp [is_complete, h]
  · simp [is_complete, h]

/-- Witness for C8: a completion whose callback is mid-flight already
reports itself complete. -/
theorem is_complete_iff_not_pending_witness : is_complete sCallback = true :=
  (is_complete_iff_not_pending sCallback).2.1 rfl

/-- C9: `init_time` (the bind operation) is idempotent: only the first
call on an unbound completion stores the owning context, the operation
kind and the issue timestamp; any subsequent call is a no-op leaving all
three fields unchanged. -/
theorem init_time_idempotent (s : AioCompletion) (i i' : Nat) (t t' : AioType)
    (n n' : Nat) :
    (s.ictx = none →
      (init_time s i t n).ictx = some i ∧ (init_time s i t n).aio_type = t ∧
        (init_time s i t n).start_time = n) ∧
    (s.ictx ≠ none → init_time s i t n = s) ∧
    init_time (init_time s i t n) i' t' n' = init_time s i t n := by
  refine ⟨fun h => ?_, fun h => ?_, ?_⟩
  · simp [init_time, h]
  · simp [init_time, h]
  · by_cases h : s.ictx = none
    · simp [init_time, h]
    · simp [init_time, h]

/-- Witness for C9: binding an unbound completion stores context 7, and a
second bind with different arguments changes nothing. -/
theorem init_time_idempotent_witness :
    (init_time sUnbound 7 AioType.AIO_TYPE_READ 42).ictx = some 7 ∧
    init_time (init_time sUnbound 7 AioType.AIO_TYPE_READ 42) 9
        AioType.AIO_TYPE_WRITE 99 =
      init_time sUnbound 7 AioType.AIO_TYPE_READ 42 :=
  ⟨((init_time_idempotent sUnbound 7 9 AioType.AIO_TYPE_READ
      AioType.AIO_TYPE_WRITE 42 99).1 rfl).1,
   (init_time_idempotent sUnbound 7 9 AioType.AIO_TYPE_READ
      AioType.AIO_TYPE_WRITE 42 99).2.2⟩

/-- C6: `set_request_count n` on a bound completion with no outstanding
count sets `pending_count` to 1 and queues exactly one deferred-completion
work unit when `n = 0`, and sets `pending_count` to `n` and queues nothing
when `n > 0`; it mutates no other modelled state and returns in both
cases. -/
theorem set_request_count_queues (s : AioCompletion) (n : Nat)
    (hictx : s.ictx.isSome) (hp : s.pending_count = 0) :
    ∃ s', set_request_count s n = some s' ∧
      s'.pending_count = (if n = 0 then 1 else n) ∧
      s'.queued_work = s.queued_work + (if n = 0 then 1 else 0) ∧
      s'.ictx = s.ictx ∧ s'.state = s.state ∧ s'.rval = s.rval := by
  have hnn : ¬ s.ictx = none := by
    intro hn
    rw [hn] at hictx
    simp at hictx
  unfold set_request_count
  rw [if_neg hnn, if_neg (by omega)]
  by_cases h0 : n = 0
  · subst h0
    rw [if_pos rfl]
    exact ⟨_, rfl, by simp, by simp, rfl, rfl, rfl⟩
  · rw [if_neg h0]
    exact ⟨_, rfl, by simp [h0], by simp [h0], rfl, rfl, rfl⟩

/-- Witness for C6 at `n = 0` and `n = 2` on a fresh completion. -/
theorem set_request_count_queues_witness :
    (∃ s', set_request_count (mkCompletion 0 AioType.AIO_TYPE_WRITE) 0 = some s' ∧
      s'.pending_count = 1 ∧ s'.queued_work = 1) ∧
    (∃ s', set_request_count (mkCompletion 0 AioType.AIO_TYPE_WRITE) 2 = some s' ∧
      s'.pending_count = 2 ∧ s'.queued_work = 0) := by
  constructor
  · obtain ⟨s', h1, h2, h3, -⟩ :=
      set_request_count_queues (mkCompletion 0 AioType.AIO_TYPE_WRITE) 0
        (by decide) (by decide)
    exact ⟨s', h1, by simpa using h2, by simpa [mkCompletion] using h3⟩
  · obtain ⟨s', h1, h2, h3, -⟩ :=
      set_request_count_queues (mkCompletion 0 AioType.AIO_TYPE_WRITE) 2
        (by decide) (by decide)
    exact ⟨s', h1, by simpa using h2, by simpa [mkCompletion] using h3⟩

/-- C5: a second `set_request_count` on the same completion (pending_count
nonzero at the exchange) and a `complete_request` with `pending_count`
already at zero each fail a `ceph_assert` (modelled as `none`: abort, not
silent mutation); under the single-declare, at-most-declared-reports
precondition neither assertion branch is reachable. -/
theorem protocol_violation_asserts (s : AioCompletion) (n : Nat) (r : Int)
    (rs : List Int) :
    (s.pending_count ≠ 0 → set_request_count s n = none) ∧
    (s.pending_count = 0 → complete_request s r = none) ∧
    (s.pending_count = 0 → s.ictx.isSome → (set_request_count s n).isSome) ∧
    (s.ictx.isSome → rs.length ≤ s.pending_count → (deliver s rs).isSome) := by
  refine ⟨fun h => ?_, fun h => ?_, fun h hictx => ?_, fun hictx hlen => ?_⟩
  · unfold set_request_count
    by_cases hn : s.ictx = none
    · rw [if_pos hn]
    · rw [if_neg hn, if_pos h]
  · unfold complete_request
    rw [if_pos h]
  · have hnn : ¬ s.ictx = none := by
      intro hn
      rw [hn] at hictx
      simp at hictx
    unfold set_request_count
    rw [if_neg hnn, if_neg (by omega)]
    by_cases h0 : n = 0
    · rw [if_pos h0]
      rfl
    · rw [if_neg h0]
      rfl
  · exact deliver_isSome rs s hictx hlen

/-- Witness for C5: double-declare aborts, over-reporting aborts, and a
conforming declare-2-report-2 run never reaches an assertion. -/
theorem protocol_violation_asserts_witness :
    set_request_count (mkCompletion 2 AioType.AIO_TYPE_WRITE) 3 = none ∧
    complete_request (mkCompletion 0 AioType.AIO_TYPE_WRITE) 1 = none ∧
    (deliver (mkCompletion 2 AioType.AIO_TYPE_WRITE) [1, 2]).isSome :=
  ⟨(protocol_violation_asserts (mkCompletion 2 AioType.AIO_TYPE_WRITE) 3 1 []).1
      (by decide),
   (protocol_violation_asserts (mkCompletion 0 AioType.AIO_TYPE_WRITE) 3 1 []).2.1
      (by decide),
   (protocol_violation_asserts (mkCompletion 2 AioType.AIO_TYPE_WRITE) 3 1
      [1, 2]).2.2.2 (by decide) (by decide)⟩

/-- C4: when the operation kind is close, or is open with a negative
result at entry to `complete`, the owning context is destroyed and the
association nulled strictly before the user callback is invoked: in the
trace of `complete`, `destroyCtx` precedes `invokeCallback`, and the
callback observes `ictx = none`; the resulting state's `ictx` is null. -/
theorem complete_destroys_ctx_before_callback (s : AioCompletion)
    (hictx : s.ictx.isSome)
    (hkind : s.aio_type = AioType.AIO_TYPE_CLOSE ∨
      (s.aio_type = AioType.AIO_TYPE_OPEN ∧ s.rval < 0))
    (hcb : s.complete_cb = true) :
    ∃ s', complete s = some (s',
        [Ev.destroyCtx, Ev.setState AioState.AIO_STATE_CALLBACK,
         Ev.invokeCallback none, Ev.setState AioState.AIO_STATE_COMPLETE,
         Ev.notifyAll]) ∧ s'.ictx = none := by
  have hnn : ¬ s.ictx = none := by
    intro hn
    rw [hn] at hictx
    simp at hictx
  have hd : completeDestroysCtx s = true := by
    unfold completeDestroysCtx
    exact decide_eq_true hkind
  unfold complete
  rw [if_neg hnn]
  simp only [hd, if_true, reduceIte, hcb, Option.isSome_none, Bool.false_and,
    Bool.and_self, if_false]
  exact ⟨_, rfl, rfl⟩

/-- Witness for C4: completing a close request destroys the context
before the callback runs. -/
theorem complete_destroys_ctx_before_callback_witness :
    ∃ s', complete (mkCompletion 0 AioType.AIO_TYPE_CLOSE) = some (s',
        [Ev.destroyCtx, Ev.setState AioState.AIO_STATE_CALLBACK,
         Ev.invokeCallback none, Ev.setState AioState.AIO_STATE_COMPLETE,
         Ev.notifyAll]) ∧ s'.ictx = none :=
  complete_destroys_ctx_before_callback (mkCompletion 0 AioType.AIO_TYPE_CLOSE)
    (by decide) (Or.inl rfl) rfl

/-- C2: delivering any multiset of sub-operation reports through
`complete_request` yields, as the final result after completion, the first
latched real error when one exists and otherwise the sum of the strictly
positive reports (`specExpectedResult`); in particular any permutation of
[5, 3, -EIO, 2] (with EIO = 5) yields -EIO, and any permutation of [4, 6]
yields 10. -/
theorem complete_request_aggregation (s : AioCompletion) (rs : List Int)
    (hictx : s.ictx.isSome) (hcount : s.pending_count = rs.length)
    (hne : rs ≠ []) (hrv : s.rval = 0) (herr : s.error_rval = 0) :
    ∃ s', deliver s rs = some s' ∧
      get_return_value s' = specExpectedResult rs ∧
      (rs.Perm [5, 3, -5, 2] → get_return_value s' = -5) ∧
      (rs.Perm [4, 6] → get_return_value s' = 10) := by
  obtain ⟨s', hdel, hrvv, -⟩ := deliver_result rs s hictx hcount hne
  rw [hrv, herr, foldl_aggStep] at hrvv
  simp only [zero_add, if_pos rfl, reduceIte] at hrvv
  have hmain : get_return_value s' = specExpectedResult rs := by
    unfold get_return_value specExpectedResult
    rcases hfe : firstError rs with _ | e
    · rw [hfe] at hrvv
      simpa using hrvv
    · rw [hfe] at hrvv
      have hlt : e < 0 := by
        have := List.find?_some hfe
        simp only [isRealError, Bool.and_eq_true, decide_eq_true_eq] at this
        exact this.1
      simpa [hlt] using hrvv
  refine ⟨s', hdel, hmain, fun hperm => ?_, fun hperm => ?_⟩
  · rw [hmain]
    have hfe : firstError rs = some (-5) := by
      apply find?_eq_some_of_unique (-5) rs
      · intro x hx hpx
        have hx4 : x ∈ [(5:Int), 3, -5, 2] := hperm.mem_iff.mp hx
        simp only [List.mem_cons, List.mem_singleton, List.not_mem_nil,
          or_false] at hx4
        rcases hx4 with h5 | h3 | hm5 | h2 <;> subst_vars
        · exact absurd hpx (by decide)
        · exact absurd hpx (by decide)
        · rfl
        · exact absurd hpx (by decide)
      · exact hperm.mem_iff.mpr (by simp)
      · decide
    unfold specExpectedResult
    rw [hfe]
  · rw [hmain]
    have hfe : firstError rs = none := by
      unfold firstError
      rw [List.find?_eq_none]
      intro x hx
      have hx2 : x ∈ [(4:Int), 6] := hperm.mem_iff.mp hx
      simp only [List.mem_cons, List.mem_singleton, List.not_mem_nil,
        or_false] at hx2
      rcases hx2 with h4 | h6 <;> subst_vars <;> decide
    have hsum : sumPos rs = 10 := by
      unfold sumPos
      rw [List.Perm.sum_eq (List.Perm.filter _ hperm)]
      decide
    unfold specExpectedResult
    rw [hfe, hsum]

/-- Witness for C2: the concrete runs [5, 3, -5, 2] and [4, 6]. -/
theorem complete_request_aggregation_witness :
    (∃ s', deliver (mkCompletion 4 AioType.AIO_TYPE_WRITE) [5, 3, -5, 2] =
        some s' ∧ get_return_value s' = -5) ∧
    (∃ s', deliver (mkCompletion 2 AioType.AIO_TYPE_WRITE) [4, 6] =
        some s' ∧ get_return_value s' = 10) := by
  constructor
  · obtain ⟨s', h1, -, h3, -⟩ :=
      complete_request_aggregation (mkCompletion 4 AioType.AIO_TYPE_WRITE)
        [5, 3, -5, 2] (by decide) (by decide) (by decide) (by decide) (by decide)
    exact ⟨s', h1, h3 (List.Perm.refl _)⟩
  · obtain ⟨s', h1, -, -, h4⟩ :=
      complete_request_aggregation (mkCompletion 2 AioType.AIO_TYPE_WRITE)
        [4, 6] (by decide) (by decide) (by decide) (by decide) (by decide)
    exact ⟨s', h1, h4 (List.Perm.refl _)⟩

/-- C3: the benign-duplicate sentinel -EEXIST is never latched into the
first-error slot: a sentinel report is a no-op on the aggregation state
(so it cannot overwrite a previously latched error), after any delivery
the slot never holds -EEXIST, and when the sentinel arrives before a real
error `e`, the later `e` still latches and becomes the final result. -/
theorem benign_duplicate_excluded (s : AioCompletion) (e : Int)
    (he : e < 0) (hsent : e ≠ -EEXIST)
    (hictx : s.ictx.isSome) (hp : s.pending_count = 2)
    (hrv : s.rval = 0) (herr : s.error_rval = 0) :
    (∀ t : AioCompletion, accumulate t (-EEXIST) = t) ∧
    (∀ (t t' : AioCompletion) (xs : List Int), t.error_rval ≠ -EEXIST →
      deliver t xs = some t' → t'.error_rval ≠ -EEXIST) ∧
    (∃ s', deliver s [-EEXIST, e] = some s' ∧ s'.error_rval = e ∧
      get_return_value s' = e) := by
  refine ⟨fun t => ?_, fun t t' xs => deliver_error_ne xs t t', ?_⟩
  · norm_num [accumulate, EEXIST]
  · obtain ⟨s', hdel, hrvv, herrv⟩ :=
      deliver_result [-EEXIST, e] s hictx (by rw [hp]; rfl) (by simp)
    rw [hrv, herr] at hrvv herrv
    have h1 : aggStep ((0 : Int), (0 : Int)) (-EEXIST) = (0, 0) := by
      norm_num [aggStep, EEXIST]
    have h2 : aggStep ((0 : Int), (0 : Int)) e = (0, e) := by
      have hne0 : ¬ (0 : Int) < e := by omega
      simp [aggStep, hne0, hsent]
    simp only [List.foldl_cons, List.foldl_nil, h1, h2] at hrvv herrv
    refine ⟨s', hdel, herrv, ?_⟩
    unfold get_return_value
    rw [hrvv]
    simp [he]

/-- Witness for C3 with the real error -5 after the sentinel -17. -/
theorem benign_duplicate_excluded_witness :
    ∃ s', deliver (mkCompletion 2 AioType.AIO_TYPE_WRITE) [-EEXIST, -5] =
      some s' ∧ s'.error_rval = -5 ∧ get_return_value s' = -5 :=
  (benign_duplicate_excluded (mkCompletion 2 AioType.AIO_TYPE_WRITE) (-5)
    (by decide) (by decide) (by decide) (by decide) (by decide) (by decide)).2.2

/-- C10: a report of exactly 0 is neutral: it is not added to the byte
count and, although it reaches the error-latch branch, the
compare-exchange installs 0 into the zero-initialised slot, leaving the
slot semantically unset — a later negative report still latches and
becomes the final result, and the sequence [0, 5] yields 5. -/
theorem zero_report_neutral (s : AioCompletion) (e : Int)
    (he : e < 0) (hsent : e ≠ -EEXIST)
    (hictx : s.ictx.isSome) (hp : s.pending_count = 2)
    (hrv : s.rval = 0) (herr : s.error_rval = 0) :
    (∀ t : AioCompletion, accumulate t 0 = t) ∧
    (∃ s', deliver s [0, e] = some s' ∧ s'.error_rval = e ∧
      get_return_value s' = e) ∧
    (∃ s', deliver s [0, 5] = some s' ∧ s'.error_rval = 0 ∧
      get_return_value s' = 5) := by
  have hzero : ∀ t : AioCompletion, accumulate t 0 = t := by
    intro t
    unfold accumulate
    rw [if_neg (by omega), if_pos (by norm_num [EEXIST])]
    by_cases h : t.error_rval = 0
    · rw [if_pos h, show (0 : Int) = t.error_rval from h.symm]
    · rw [if_neg h]
  have hstep0 : aggStep ((0 : Int), (0 : Int)) 0 = (0, 0) := by
    norm_num [aggStep, EEXIST]
  refine ⟨hzero, ?_, ?_⟩
  · obtain ⟨s', hdel, hrvv, herrv⟩ :=
      deliver_result [0, e] s hictx (by rw [hp]; rfl) (by simp)
    rw [hrv, herr] at hrvv herrv
    have h2 : aggStep ((0 : Int), (0 : Int)) e = (0, e) := by
      have hne0 : ¬ (0 : Int) < e := by omega
      simp [aggStep, hne0, hsent]
    simp only [List.foldl_cons, List.foldl_nil, hstep0, h2] at hrvv herrv
    refine ⟨s', hdel, herrv, ?_⟩
    unfold get_return_value
    rw [hrvv]
    simp [he]
  · obtain ⟨s', hdel, hrvv, herrv⟩ :=
      deliver_result [0, 5] s hictx (by rw [hp]; rfl) (by simp)
    rw [hrv, herr] at hrvv herrv
    have h2 : aggStep ((0 : Int), (0 : Int)) 5 = (5, 0) := by
      norm_num [aggStep]
    simp only [List.foldl_cons, List.foldl_nil, hstep0, h2] at hrvv herrv
    refine ⟨s', hdel, herrv, ?_⟩
    unfold get_return_value
    rw [hrvv]
    norm_num

/-- Witness for C10 with the later error -5. -/
theorem zero_report_neutral_witness :
    (∃ s', deliver (mkCompletion 2 AioType.AIO_TYPE_WRITE) [0, -5] =
      some s' ∧ s'.error_rval = -5 ∧ get_return_value s' = -5) ∧
    (∃ s', deliver (mkCompletion 2 AioType.AIO_TYPE_WRITE) [0, 5] =
      some s' ∧ s'.error_rval = 0 ∧ get_return_value s' = 5) :=
  ⟨(zero_report_neutral (mkCompletion 2 AioType.AIO_TYPE_WRITE) (-5)
      (by decide) (by decide) (by decide) (by decide) (by decide)
      (by decide)).2.1,
   (zero_report_neutral (mkCompletion 2 AioType.AIO_TYPE_WRITE) (-5)
      (by decide) (by decide) (by decide) (by decide) (by decide)
      (by decide)).2.2⟩

/-- C1 (falsified conjunct, demonstrated at a failing interleaving): the
claim requires the user callback to run only after all N results have been
accounted into the aggregate, but `complete_request` decrements
`pending_count` before aggregating the caller's own result, so with N = 2
and results 5 (thread 0) and 3 (thread 1), the schedule in which thread 0
stops after its decrement while thread 1 decrements, aggregates, and —
being the one whose decrement reached zero — runs finalize and complete,
invokes the user callback with aggregate 3; thread 0 adds its 5 only
afterwards (final aggregate 8).  No assertion fails, exactly one thread
finalizes, the callback fires exactly once, and both threads run to
completion — only the "after all N results are accounted" part breaks. -/
theorem complete_request_race_callback_early :
    (run raceInit [0, 1, 1, 1, 0, 0]).failed = false ∧
    (run raceInit [0, 1, 1, 1, 0, 0]).finishers = 1 ∧
    (run raceInit [0, 1, 1, 1, 0, 0]).callbackCount = 1 ∧
    (run raceInit [0, 1, 1, 1, 0, 0]).callbackRval = some 3 ∧
    (run raceInit [0, 1, 1, 1, 0, 0]).shared.rval = 8 ∧
    (run raceInit [0, 1, 1, 1, 0, 0]).threads.map ThreadSt.pc = [3, 3] := by
  decide

end LibrbdAio
